import Mathlib

/-!
Verification development for the arXiv quantum-paper pipeline
(`arxiv_search.py`, `database.py`, `summarizer.py`, `pdf_ocr.py`,
`crawler.py`, `config.py`).

The Python code is shallowly embedded: strings are Lean `String`s whose
operations are modelled by structurally recursive functions on `List Char`
(mirroring Python's `str` methods); the SQLite store is a record of row
lists with explicit auto-increment counters; calls to external services
(HTTP fetch, OCR model, chat model) are inputs to the embedded functions,
given as explicit outcome values; Python exceptions are `Except`/`Option`
results; Python `float` is modelled as `ℚ` (every literal appearing in the
code and in the modelled responses is exactly representable).
-/

namespace ArxivTool

/-! ### Python string primitives on `List Char` -/

/-- `needle` is a leading segment of `hay` (Python `str.startswith`). -/
def isPrefixL : List Char → List Char → Bool
  | [], _ => true
  | _ :: _, [] => false
  | a :: as, b :: bs => a == b && isPrefixL as bs

/-- Python substring test `needle in hay` (an empty needle is in every string). -/
def containsL : List Char → List Char → Bool
  | [], needle => needle.isEmpty
  | c :: rest, needle => isPrefixL needle (c :: rest) || containsL rest needle

/-- Python `sub in s` on `String`s. -/
def pyContains (s sub : String) : Bool := containsL s.data sub.data

/-- Python `s.startswith(p)`. -/
def pyStartsWith (s p : String) : Bool := isPrefixL p.data s.data

/-- Python `str.lower` (ASCII case fold, which covers every string the code
lowercases). -/
def pyLower (s : String) : String := ⟨s.data.map Char.toLower⟩

/-- Python `str.strip()` with no argument: drop whitespace from both ends. -/
def pyStripL (l : List Char) : List Char :=
  ((l.dropWhile Char.isWhitespace).reverse.dropWhile Char.isWhitespace).reverse

/-- Python `s.strip()` on `String`s. -/
def pyStrip (s : String) : String := ⟨pyStripL s.data⟩

/-- Python `s.replace(old, new)` for one-character `old`/`new`. -/
def pyReplaceChar (s : String) (old new : Char) : String :=
  ⟨s.data.map (fun c => if c == old then new else c)⟩

/-- Python `s.split(sep)` for a one-character separator: all occurrences,
empty segments kept. -/
def splitOnCharL (sep : Char) : List Char → List (List Char)
  | [] => [[]]
  | c :: rest =>
    if c == sep then [] :: splitOnCharL sep rest
    else
      match splitOnCharL sep rest with
      | [] => [[c]]
      | s :: ss => (c :: s) :: ss

/-- Python `s.split(sep)` on `String`s, one-character separator. -/
def pySplitChar (s : String) (sep : Char) : List String :=
  (splitOnCharL sep s.data).map String.mk

/-- Join segments with a separator (used to model Python `maxsplit` remainders). -/
def joinL (sep : List Char) : List (List Char) → List Char
  | [] => []
  | [s] => s
  | s :: ss => s ++ sep ++ joinL sep ss

/-- Python `s.split(sep, 1)[1]` for a one-character separator occurring in `s`:
everything after the first occurrence. -/
def afterFirstChar (sep : Char) (s : String) : String :=
  ⟨joinL [sep] (splitOnCharL sep s.data).tail⟩

/-- Worker for multi-character `str.split`: `fuel` bounds the recursion and is
instantiated with the string length, which one-character-per-step consumption
never exhausts. -/
def splitSeqAux (sep : List Char) : Nat → List Char → List (List Char)
  | _, [] => [[]]
  | 0, l => [l]
  | f + 1, c :: rest =>
    if isPrefixL sep (c :: rest) then
      [] :: splitSeqAux sep f (rest.drop (sep.length - 1))
    else
      match splitSeqAux sep f rest with
      | [] => [[c]]
      | s :: ss => (c :: s) :: ss

/-- Python `s.split(sep)` for a non-empty multi-character separator. -/
def pySplitSeq (s sep : String) : List String :=
  (splitSeqAux sep.data s.data.length s.data).map String.mk

/-- Lexicographic byte order on strings, as SQLite's BINARY collation compares
TEXT values. -/
def strLtL : List Char → List Char → Bool
  | [], [] => false
  | [], _ :: _ => true
  | _ :: _, [] => false
  | a :: as, b :: bs => a.toNat < b.toNat || (a == b && strLtL as bs)

def pyStrLt (a b : String) : Bool := strLtL a.data b.data

/-! ### Numbers: Python `float()`, `int()` and `str` of a number -/

/-- Value of one decimal digit character. -/
def charDigit? (c : Char) : Option Nat :=
  if c.isDigit then some (c.toNat - 48) else none

/-- A non-empty all-digit char list read as a natural number (most significant
digit first). -/
def natOfDigitsL? (cs : List Char) : Option Nat :=
  if cs.isEmpty then none
  else cs.foldl (fun acc c => acc.bind fun a => (charDigit? c).map fun d => a * 10 + d)
    (some 0)

/-- Model of Python `int(s)` as used on the all-digit page-key segments. -/
def pyInt? (s : String) : Option Nat := natOfDigitsL? (pyStripL s.data)

/-- Model of Python `float(s)` restricted to optionally signed decimal
literals (`d+`, `d+.d*`, `.d+`, `d*.d+` with an optional sign, surrounding
whitespace stripped); every score string the relevance grammar produces is of
this form. `none` mirrors the `ValueError` that the caller catches. -/
def pyFloatQ? (s : String) : Option ℚ :=
  let l := pyStripL s.data
  let signAndRest : Bool × List Char :=
    match l with
    | '-' :: rest => (true, rest)
    | '+' :: rest => (false, rest)
    | _ => (false, l)
  let q? : Option ℚ :=
    match splitOnCharL '.' signAndRest.2 with
    | [ip] => (natOfDigitsL? ip).map (fun n => (n : ℚ))
    | [ip, fp] =>
      if ip.isEmpty && fp.isEmpty then none
      else
        let i? := if ip.isEmpty then some 0 else natOfDigitsL? ip
        let f? := if fp.isEmpty then some 0 else natOfDigitsL? fp
        match i?, f? with
        | some i, some f => some ((i : ℚ) + (f : ℚ) / (10 : ℚ) ^ fp.length)
        | _, _ => none
    | _ => none
  q?.map (fun q => if signAndRest.1 then -q else q)

/-- Little-endian decimal digits of `n`; the first argument is fuel, always
called with `n` itself, which suffices since `n / 10 < n` for positive `n`. -/
def digitsRevAux : Nat → Nat → List Nat
  | _, 0 => []
  | 0, _ + 1 => []
  | f + 1, n + 1 => ((n + 1) % 10) :: digitsRevAux f ((n + 1) / 10)

/-- Model of Python `str(n)` for a natural number `n`. -/
def natReprL (n : Nat) : List Char :=
  if n = 0 then ['0']
  else ((digitsRevAux n n).map (fun d => Char.ofNat (48 + d))).reverse

def natRepr (n : Nat) : String := ⟨natReprL n⟩

/-! ### Stable insertion sort (Python `sorted`, SQLite `ORDER BY`) -/

/-- Insert `x` after every already-placed element `y` with `le y x`; with a
total `le` this yields a stable sort. -/
def insertSortedBy (le : α → α → Bool) (x : α) : List α → List α
  | [] => [x]
  | y :: ys => if le y x then y :: insertSortedBy le x ys else x :: y :: ys

/-- Stable sort: elements are inserted left to right, so equal keys keep
their original relative order, as Python's `sorted` guarantees. -/
def sortL (le : α → α → Bool) (l : List α) : List α :=
  l.foldl (fun acc x => insertSortedBy le x acc) []

theorem mem_insertSortedBy (le : α → α → Bool) (x : α) (l : List α) (z : α) :
    z ∈ insertSortedBy le x l ↔ z = x ∨ z ∈ l := by
  induction l with
  | nil => simp [insertSortedBy]
  | cons y ys ih =>
    cases h : le y x with
    | true =>
      simp only [insertSortedBy, h, if_true, List.mem_cons, ih]
      tauto
    | false =>
      simp only [insertSortedBy, h, Bool.false_eq_true, if_false, List.mem_cons]

theorem mem_sortL (le : α → α → Bool) (l : List α) (z : α) :
    z ∈ sortL le l ↔ z ∈ l := by
  suffices h : ∀ acc : List α, z ∈ l.foldl (fun acc x => insertSortedBy le x acc) acc ↔
      z ∈ acc ∨ z ∈ l by
    simpa using h []
  induction l with
  | nil => simp
  | cons y ys ih =>
    intro acc
    simp only [List.foldl_cons, ih, mem_insertSortedBy, List.mem_cons]
    tauto

/-! ### `arxiv_search.py`: response parsing, relevance pre-filter, dedup -/

/-- An XML element as the entry parser sees it: present, with possibly absent
text content (`elem.text is None` for an empty element). -/
structure XmlElem where
  text : Option String
deriving DecidableEq

/-- One `<entry>` of the Atom feed, reduced to the nodes
`_parse_arxiv_response` reads. -/
structure AtomEntry where
  title : Option XmlElem
  summary : Option XmlElem
  idElem : Option XmlElem
  published : Option XmlElem
  updated : Option XmlElem
  authorName : List (Option XmlElem)
  categoryTerm : List (Option String)
deriving DecidableEq

/-- The paper dictionary built by `_parse_arxiv_response`. `authors` may hold
`None` entries (the code appends `name.text` unchecked); `published`/`updated`
are `'N/A'` when the element is missing but `None` when the element has no
text. `fetched_at` carries the wall-clock reading passed in as `now`. -/
structure Paper where
  arxiv_id : String
  title : String
  abstract : String
  authors : List (Option String)
  categories : List String
  published : Option String
  updated : Option String
  pdf_link : String
  abstract_link : String
  fetched_at : String
deriving DecidableEq

/-- One entry's parse. The surrounding per-entry `try/except` is the `Option`
collapse: a `none` arises exactly where the code calls `.strip()` or
`.split()` on a `None` text (an `AttributeError`), and such an entry is
skipped. -/
def parseEntry (now : String) (e : AtomEntry) : Option Paper := do
  let title ← match e.title with
    | none => some "N/A"
    | some el => el.text.map (fun t => pyReplaceChar (pyStrip t) '\n' ' ')
  let abstract ← match e.summary with
    | none => some "N/A"
    | some el => el.text.map (fun t => pyReplaceChar (pyStrip t) '\n' ' ')
  let arxiv_id ← match e.idElem with
    | none => some "N/A"
    | some el => el.text.map (fun t => (pySplitSeq t "/abs/").getLastD "")
  some
    { arxiv_id := arxiv_id
      title := title
      abstract := abstract
      authors := e.authorName.filterMap (fun n? => n?.map XmlElem.text)
      categories := e.categoryTerm.filterMap
        (fun t? => t?.bind (fun t => if t.isEmpty then none else some t))
      published := match e.published with
        | none => some "N/A"
        | some el => el.text
      updated := match e.updated with
        | none => some "N/A"
        | some el => el.text
      pdf_link := "https://arxiv.org/pdf/" ++ arxiv_id ++ ".pdf"
      abstract_link := "https://arxiv.org/abs/" ++ arxiv_id
      fetched_at := now }

/-- `_parse_arxiv_response` over an already-parsed document: each entry is
parsed inside a `try/except` that logs and `continue`s, so malformed entries
are dropped and the rest kept. -/
def parse_arxiv_response (now : String) (entries : List AtomEntry) : List Paper :=
  entries.filterMap (parseEntry now)

/-- Outcome of `ET.fromstring(xml_data)`: either the body is not well-formed
XML (the call raises `ParseError`) or it yields the entry list. -/
inductive ArxivXml
  | malformed
  | doc (entries : List AtomEntry)
deriving DecidableEq

/-- Outcome of the `urllib.request.urlopen(url)` / `response.read()` block. -/
inductive FetchOutcome
  | ok (body : ArxivXml)
  | netError
deriving DecidableEq

/-- `ArxivSearcher.QUANTUM_CATEGORIES`. -/
def QUANTUM_CATEGORIES : List String :=
  ["quant-ph", "cond-mat.mes-hall", "cond-mat.str-el", "cs.ET", "math-ph",
   "physics.atom-ph"]

/-- The keyword list local to `_is_quantum_related`. -/
def quantum_keywords : List String :=
  ["quantum", "qubit", "entanglement", "superposition",
   "quantum computing", "quantum algorithm", "quantum circuit",
   "quantum machine learning", "qml", "variational quantum",
   "qaoa", "vqe", "quantum annealing", "quantum cryptography",
   "quantum information", "quantum error correction"]

structure ArxivSearcher where
  seen_papers : List String
deriving DecidableEq

/-- `_generate_paper_hash`: the dedup key is the arXiv id itself. -/
def generate_paper_hash (p : Paper) : String := p.arxiv_id

/-- `_is_quantum_related`: category allow-list substring match, else keyword
substring search in the lower-cased `title + ' ' + abstract`. -/
def is_quantum_related (p : Paper) : Bool :=
  p.categories.any (fun cat => QUANTUM_CATEGORIES.any (fun qc => pyContains cat qc))
    || quantum_keywords.any
        (fun kw => pyContains (pyLower (p.title ++ " " ++ p.abstract)) kw)

/-- The filter-and-dedup loop at the end of `search`: returns the unique
papers together with the updated `seen_papers` set (modelled as a list). -/
def dedupFilterLoop (filter_quantum : Bool) :
    List String → List Paper → List Paper × List String
  | seen, [] => ([], seen)
  | seen, p :: rest =>
    if seen.contains (generate_paper_hash p) then
      dedupFilterLoop filter_quantum seen rest
    else if filter_quantum && !is_quantum_related p then
      dedupFilterLoop filter_quantum seen rest
    else
      let r := dedupFilterLoop filter_quantum (generate_paper_hash p :: seen) rest
      (p :: r.1, r.2)

/-- `ArxivSearcher.search`, with the network call's outcome as input. The
`try` wraps only the fetch; `_parse_arxiv_response` runs outside it, so a
document-level `ET.fromstring` failure propagates (`Except.error`), while a
network failure is caught and yields `[]`. The query-string construction does
not affect the returned value and is elided. -/
def ArxivSearcher.search (self : ArxivSearcher) (fetch : FetchOutcome)
    (filter_quantum : Bool) (now : String) :
    Except Unit (List Paper × ArxivSearcher) :=
  match fetch with
  | .netError => .ok ([], self)
  | .ok .malformed => .error ()
  | .ok (.doc entries) =>
    let papers := parse_arxiv_response now entries
    let r := dedupFilterLoop filter_quantum self.seen_papers papers
    .ok (r.1, ⟨r.2⟩)

/-! ### `database.py`: the SQLite store -/

/-- A row of the `papers` table. `authors`/`categories` are stored
JSON-serialized in SQLite and parsed back on every read; the serialization is
injective and never inspected by the operations under verification, so the
model stores the structured values. -/
structure PaperRow where
  id : Nat
  arxiv_id : String
  title : String
  abstract : String
  authors : List (Option String)
  categories : List String
  published : Option String
  updated : Option String
  pdf_link : String
  abstract_link : String
  processed : Bool
  is_quantum_relevant : Bool
  relevance_score : ℚ
deriving DecidableEq

/-- A row of the `summaries` table. -/
structure SummaryRow where
  id : Nat
  paper_id : Nat
  methodology_summary : String
  key_contributions : String
  extracted_text : Option String
deriving DecidableEq

/-- The store: row lists plus the AUTOINCREMENT counters (SQLite starts
them at 1). -/
structure PaperDatabase where
  papers : List PaperRow
  summaries : List SummaryRow
  next_paper_id : Nat
  next_summary_id : Nat
deriving DecidableEq

def PaperDatabase.empty : PaperDatabase :=
  { papers := [], summaries := [], next_paper_id := 1, next_summary_id := 1 }

/-- Number of stored rows carrying a given arXiv id. -/
def PaperDatabase.countId (db : PaperDatabase) (aid : String) : Nat :=
  (db.papers.filter (fun r => r.arxiv_id == aid)).length

/-- `insert_paper`. A duplicate `arxiv_id` violates the UNIQUE constraint;
the raised `sqlite3.IntegrityError` is caught and surfaces as `none` with the
store unchanged. On success the new `cursor.lastrowid` is returned. The
search-result dictionaries never carry `is_quantum_relevant` or
`relevance_score`, so their `paper.get` defaults (`True`, `0.0`) apply. -/
def PaperDatabase.insert_paper (db : PaperDatabase) (p : Paper) :
    Option Nat × PaperDatabase :=
  if db.papers.any (fun r => r.arxiv_id == p.arxiv_id) then
    (none, db)
  else
    let row : PaperRow :=
      { id := db.next_paper_id
        arxiv_id := p.arxiv_id
        title := p.title
        abstract := p.abstract
        authors := p.authors
        categories := p.categories
        published := p.published
        updated := p.updated
        pdf_link := p.pdf_link
        abstract_link := p.abstract_link
        processed := false
        is_quantum_relevant := true
        relevance_score := 0 }
    (some db.next_paper_id,
      { db with papers := db.papers ++ [row],
                next_paper_id := db.next_paper_id + 1 })

/-- Whether the transaction body of `insert_summary` runs to `commit` or hits
an exception (caught, rolled back, `none` returned). -/
inductive SqlOutcome
  | ok
  | err
deriving DecidableEq

/-- `insert_summary`: inserts the summary row and flips `processed` on every
`papers` row with the given id, in one transaction committed together — or,
on an exception, rolls back leaving the store untouched. On success the
summary row's `cursor.lastrowid` is returned (the subsequent UPDATE leaves
`lastrowid` unchanged). The schema's foreign key is not enforced (the code
never enables `PRAGMA foreign_keys`), so no existence check on `paper_id`. -/
def PaperDatabase.insert_summary (db : PaperDatabase) (paper_id : Nat)
    (methodology_summary key_contributions : String)
    (extracted_text : Option String) (outcome : SqlOutcome) :
    Option Nat × PaperDatabase :=
  match outcome with
  | .err => (none, db)
  | .ok =>
    let srow : SummaryRow :=
      { id := db.next_summary_id
        paper_id := paper_id
        methodology_summary := methodology_summary
        key_contributions := key_contributions
        extracted_text := extracted_text }
    (some db.next_summary_id,
      { papers := db.papers.map
          (fun r => if r.id == paper_id then { r with processed := true } else r)
        summaries := db.summaries ++ [srow]
        next_paper_id := db.next_paper_id
        next_summary_id := db.next_summary_id + 1 })

/-- SQLite DESC ordering key on the nullable `published` column: `a` may stay
before `b` when it is not strictly smaller (NULL sorts as smallest). -/
def publishedGe (a b : Option String) : Bool :=
  match a, b with
  | none, none => true
  | none, some _ => false
  | some _, none => true
  | some a, some b => !pyStrLt a b

/-- `get_unprocessed_papers`: unprocessed rows, newest publication first,
capped at `limit`. -/
def PaperDatabase.get_unprocessed_papers (db : PaperDatabase) (limit : Nat) :
    List PaperRow :=
  (sortL (fun a b => publishedGe a.published b.published)
    (db.papers.filter (fun r => !r.processed))).take limit

/-! ### `summarizer.py`: the relevance-response parser -/

/-- The dictionary `check_quantum_relevance` returns. -/
structure RelevanceResult where
  is_relevant : Bool
  relevance_score : ℚ
  explanation : String
  topics : List String
  raw_response : String
deriving DecidableEq

/-- One iteration of the `for line in lines` loop, updating the
`(score, explanation, topics)` accumulator. A `SCORE:` line parses the text
between the first and second colon; an unparseable value falls back to `0.0`
(the inner `try/except`). `EXPLANATION:`/`TOPICS:` take everything after the
first colon; a `TOPICS:` value equal to `none` case-insensitively leaves the
accumulator untouched. -/
def relevanceLineStep (st : ℚ × String × List String) (line : String) :
    ℚ × String × List String :=
  if pyStartsWith line "SCORE:" then
    ((pyFloatQ? (pyStrip ((pySplitChar line ':').getD 1 ""))).getD 0, st.2.1, st.2.2)
  else if pyStartsWith line "EXPLANATION:" then
    (st.1, pyStrip (afterFirstChar ':' line), st.2.2)
  else if pyStartsWith line "TOPICS:" then
    let topics_str := pyStrip (afterFirstChar ':' line)
    if pyLower topics_str ≠ "none" then
      (st.1, st.2.1, (pySplitChar topics_str ',').map pyStrip)
    else st
  else st

/-- `check_quantum_relevance`, with the chat-completion call's outcome as
input (`Except.error msg` models a raised exception carrying `str(e)`). The
parse of a received reply is total: every field is defaulted and no branch
can raise. -/
def check_quantum_relevance (reply : Except String String) (threshold : ℚ) :
    RelevanceResult :=
  match reply with
  | .error msg =>
    { is_relevant := false, relevance_score := 0,
      explanation := "Error: " ++ msg, topics := [], raw_response := "" }
  | .ok replyText =>
    let content := pyStrip replyText
    let st := (pySplitChar content '\n').foldl relevanceLineStep (0, "", [])
    { is_relevant := decide (st.1 ≥ threshold)
      relevance_score := st.1
      explanation := st.2.1
      topics := st.2.2
      raw_response := content }

/-! ### `pdf_ocr.py`: per-page extraction and page joining -/

/-- Outcome of the per-page OCR chat-completion call. -/
inductive OcrOutcome
  | ok (text : String)
  | err
deriving DecidableEq

/-- `_extract_text_from_image`: the whole call body sits in a `try/except`
returning `""` on any failure; on success the reply is stripped. -/
def extract_text_from_image : OcrOutcome → String
  | .ok t => pyStrip t
  | .err => ""

/-- The dictionary key `f"page_{i}"`. -/
def pageKey (i : Nat) : String := "page_" ++ natRepr i

/-- `extract_text_from_pdf` past the image conversion: pages are OCRed one by
one (`enumerate(images, 1)`), each failure yielding an empty string without
stopping the loop. The dict is modelled as its key/value pairs in insertion
order. -/
def extract_text_from_pdf (pageOutcomes : List OcrOutcome) :
    List (String × String) :=
  pageOutcomes.enum.map (fun pr => (pageKey (pr.1 + 1), extract_text_from_image pr.2))

/-- The sort key `int(x.split("_")[1])`. On the keys this code ever builds
the segment is a digit string; malformed keys (where `int()` would raise) are
sent to 0 and never arise from `extract_text_from_pdf`. -/
def pageNum (k : String) : Nat :=
  (pyInt? ((pySplitChar k '_').getD 1 "")).getD 0

/-- Python `"sep".join(l)`. -/
def joinStrings (sep : String) : List String → String :=
  fun l => ⟨joinL sep.data (l.map String.data)⟩

def PAGE_BREAK : String := "\n\n--- Page Break ---\n\n"

/-- `get_full_text`: values joined in ascending numeric key order with the
page-break marker. A dict's keys are unique, so sorting the pairs by key
equals sorting the keys and looking each one up. -/
def get_full_text (extracted_text : List (String × String)) : String :=
  joinStrings PAGE_BREAK
    ((sortL (fun a b => decide (pageNum a.1 ≤ pageNum b.1)) extracted_text).map
      Prod.snd)

/-! ### `crawler.py`: startup wiring and the per-paper batch loop -/

/-- The crawler state the claims depend on: whether `self.ocr_processor` and
`self.summarizer` were constructed. `ArxivCrawler.__init__` builds both inside
one `if self.config.OCR_API_KEY and self.config.SUMMARY_API_KEY:` branch
(Python string truthiness = non-emptiness), otherwise leaves both `None`. -/
structure ArxivCrawler where
  ocr_enabled : Bool
  summarizer_enabled : Bool
deriving DecidableEq

def ArxivCrawler.init (ocr_api_key summary_api_key : String) : ArxivCrawler :=
  if !(ocr_api_key == "") && !(summary_api_key == "") then
    { ocr_enabled := true, summarizer_enabled := true }
  else
    { ocr_enabled := false, summarizer_enabled := false }

/-- Python `s[:n]`. -/
def pySlice (s : String) (n : Nat) : String := ⟨s.data.take n⟩

/-- The external-world outcomes met while processing one paper: the relevance
check's parsed reply, whether `extract_text_from_url` raises (its PDF
download re-raises on failure), the per-page OCR outcomes, and the two
summarizer replies (those calls catch internally and always return text). -/
structure PaperEnv where
  relevance : RelevanceResult
  extraction_raises : Bool
  pageOutcomes : List OcrOutcome
  methodology : String
  contributions : String
deriving DecidableEq

/-- The body of the per-paper `try` block in `process_papers`: an irrelevant
paper is marked processed with sentinel text and skipped; otherwise OCR,
summarize, store (committing transaction), export. Returns the new store and
whether this paper counted into `processed` (summary id truthy and export
ran). `Except.error` is the exception the surrounding handler catches. -/
def process_one_paper (db : PaperDatabase) (row : PaperRow) (env : PaperEnv) :
    Except Unit (PaperDatabase × Bool) :=
  if !env.relevance.is_relevant then
    .ok ((db.insert_summary row.id "Not relevant to quantum computing" "N/A" none
      .ok).2, false)
  else if env.extraction_raises then
    .error ()
  else
    let full_text := get_full_text (extract_text_from_pdf env.pageOutcomes)
    let r := db.insert_summary row.id env.methodology env.contributions
      (some (pySlice full_text 10000)) .ok
    .ok (r.2, r.1.isSome)

/-- `process_papers`: with a missing OCR or summarizer client the batch is
skipped (0 processed); otherwise the unprocessed batch is fetched once and
each paper handled inside its own `try/except`, a failure only incrementing
the error counter. Returns `(store, processed, errors)`. -/
def ArxivCrawler.process_papers (c : ArxivCrawler) (db : PaperDatabase)
    (envOf : Nat → PaperEnv) (batch_size : Nat) (errors0 : Nat) :
    PaperDatabase × Nat × Nat :=
  if !c.ocr_enabled || !c.summarizer_enabled then (db, 0, errors0)
  else
    (db.get_unprocessed_papers batch_size).foldl
      (fun acc row =>
        match process_one_paper acc.1 row (envOf row.id) with
        | .ok (db', exported) =>
          (db', acc.2.1 + (if exported then 1 else 0), acc.2.2)
        | .error _ => (acc.1, acc.2.1, acc.2.2 + 1))
      (db, 0, errors0)

/-- Accumulator of the search loops in `search_new_papers`. -/
structure SearchAcc where
  searcher : ArxivSearcher
  db : PaperDatabase
  new_papers : Nat
  errors : Nat
deriving DecidableEq

/-- `search_new_papers`: one fetch outcome per query (categories then
keywords); each query runs inside a `try/except` so a raising search (e.g. a
document-level parse failure) is counted as an error without stopping the
loop; returned papers are inserted, duplicates not counted as new. The
crawler's client handles are not consulted anywhere on this path — `c` is
deliberately an unused parameter, mirroring the source. -/
def ArxivCrawler.search_new_papers (_c : ArxivCrawler) (searcher : ArxivSearcher)
    (db : PaperDatabase) (fetches : List FetchOutcome) (now : String) : SearchAcc :=
  fetches.foldl
    (fun acc fetch =>
      match acc.searcher.search fetch true now with
      | .error _ => { acc with errors := acc.errors + 1 }
      | .ok (papers, searcher') =>
        let r := papers.foldl
          (fun a p =>
            match a.1.insert_paper p with
            | (some _, db') => (db', a.2 + 1)
            | (none, db') => (db', a.2))
          (acc.db, 0)
        { searcher := searcher', db := r.1,
          new_papers := acc.new_papers + r.2, errors := acc.errors })
    { searcher := searcher, db := db, new_papers := 0, errors := 0 }

/-! ### Round-trip facts about page keys and the key sort -/

theorem digitsRevAux_lt_ten (f n : Nat) : ∀ d ∈ digitsRevAux f n, d < 10 := by
  induction f generalizing n with
  | zero => cases n <;> simp [digitsRevAux]
  | succ f ih =>
    cases n with
    | zero => simp [digitsRevAux]
    | succ m =>
      intro d hd
      simp only [digitsRevAux, List.mem_cons] at hd
      rcases hd with h | h
      · subst h
        exact Nat.mod_lt _ (by omega)
      · exact ih _ d h

/-- Little-endian value of a digit list. -/
def valRev : List Nat → Nat
  | [] => 0
  | d :: ds => d + 10 * valRev ds

theorem valRev_digitsRevAux (f n : Nat) (h : n ≤ f) :
    valRev (digitsRevAux f n) = n := by
  induction f generalizing n with
  | zero =>
    interval_cases n
    simp [digitsRevAux, valRev]
  | succ f ih =>
    cases n with
    | zero => simp [digitsRevAux, valRev]
    | succ m =>
      have hdiv : (m + 1) / 10 ≤ f := by
        have := Nat.div_lt_self (Nat.succ_pos m) (by omega : 1 < 10)
        omega
      simp only [digitsRevAux, valRev, ih _ hdiv]
      omega

theorem charDigit_digitChar {d : Nat} (h : d < 10) :
    charDigit? (Char.ofNat (48 + d)) = some d := by
  interval_cases d <;> decide

theorem digitChar_ne_underscore {d : Nat} (h : d < 10) :
    (Char.ofNat (48 + d) == '_') = false := by
  interval_cases d <;> decide

theorem foldl_parse_digits :
    ∀ (ds : List Nat), (∀ d ∈ ds, d < 10) → ∀ acc : Nat,
      ((ds.map (fun d => Char.ofNat (48 + d))).reverse).foldl
          (fun acc c => acc.bind fun a => (charDigit? c).map fun d => a * 10 + d)
          (some acc) =
        some (acc * 10 ^ ds.length + valRev ds) := by
  intro ds
  induction ds with
  | nil => simp [valRev]
  | cons d ds ih =>
    intro hlt acc
    have hd : d < 10 := hlt d (List.mem_cons_self d ds)
    have hds : ∀ x ∈ ds, x < 10 := fun x hx => hlt x (List.mem_cons_of_mem d hx)
    simp only [List.map_cons, List.reverse_cons, List.foldl_append, ih hds acc,
      List.foldl_cons, List.foldl_nil, charDigit_digitChar hd]
    show some ((acc * 10 ^ ds.length + valRev ds) * 10 + d) = _
    congr 1
    simp only [valRev, List.length_cons]
    ring

theorem natOfDigitsL_natReprL (n : Nat) :
    natOfDigitsL? (natReprL n) = some n := by
  by_cases h : n = 0
  · subst h; decide
  · have hne : digitsRevAux n n ≠ [] := by
      cases n with
      | zero => exact absurd rfl h
      | succ m => simp [digitsRevAux]
    have hlt := digitsRevAux_lt_ten n n
    have hval := valRev_digitsRevAux n n le_rfl
    simp only [natReprL, if_neg h, natOfDigitsL?]
    rw [if_neg]
    · have := foldl_parse_digits (digitsRevAux n n) hlt 0
      rw [this, hval]
      simp
    · simp only [List.isEmpty_eq_true, List.reverse_eq_nil_iff, List.map_eq_nil_iff]
      exact hne

theorem splitOnCharL_no_sep (c : Char) :
    ∀ l : List Char, (∀ x ∈ l, (x == c) = false) → splitOnCharL c l = [l] := by
  intro l
  induction l with
  | nil => intro _; rfl
  | cons x xs ih =>
    intro h
    have hx := h x (List.mem_cons_self x xs)
    have hxs := fun y hy => h y (List.mem_cons_of_mem x hy)
    simp only [splitOnCharL, hx, Bool.false_eq_true, if_false, ih hxs]

theorem no_underscore_natReprL (n : Nat) :
    ∀ x ∈ natReprL n, (x == '_') = false := by
  by_cases h : n = 0
  · subst h; decide
  · intro x hx
    simp only [natReprL, if_neg h, List.mem_reverse, List.mem_map] at hx
    obtain ⟨d, hd, rfl⟩ := hx
    exact digitChar_ne_underscore (digitsRevAux_lt_ten n n d hd)

theorem dropWhile_eq_self_of_none (p : α → Bool) (l : List α)
    (h : ∀ x ∈ l, p x = false) : l.dropWhile p = l := by
  cases l with
  | nil => rfl
  | cons x xs =>
    simp only [List.dropWhile_cons, h x (List.mem_cons_self x xs),
      Bool.false_eq_true, if_false]

theorem pyStripL_eq_self (l : List Char)
    (h : ∀ x ∈ l, Char.isWhitespace x = false) : pyStripL l = l := by
  rw [pyStripL, dropWhile_eq_self_of_none _ _ h,
    dropWhile_eq_self_of_none _ _ (fun x hx => h x (List.mem_reverse.mp hx)),
    List.reverse_reverse]

theorem no_whitespace_natReprL (n : Nat) :
    ∀ x ∈ natReprL n, Char.isWhitespace x = false := by
  by_cases h : n = 0
  · subst h; decide
  · intro x hx
    simp only [natReprL, if_neg h, List.mem_reverse, List.mem_map] at hx
    obtain ⟨d, hd, rfl⟩ := hx
    have := digitsRevAux_lt_ten n n d hd
    interval_cases d <;> decide

theorem splitOnCharL_cons_ne {c sep : Char} (h : (c == sep) = false)
    (l : List Char) :
    splitOnCharL sep (c :: l) =
      match splitOnCharL sep l with
      | [] => [[c]]
      | s :: ss => (c :: s) :: ss := by
  simp only [splitOnCharL, h, Bool.false_eq_true, if_false]

theorem splitOnCharL_cons_eq {c sep : Char} (h : (c == sep) = true)
    (l : List Char) :
    splitOnCharL sep (c :: l) = [] :: splitOnCharL sep l := by
  simp only [splitOnCharL, h, if_true]

theorem pageNum_pageKey (n : Nat) : pageNum (pageKey n) = n := by
  have hdata : (pageKey n).data = 'p' :: 'a' :: 'g' :: 'e' :: '_' :: natReprL n := rfl
  have hsplit : splitOnCharL '_' (pageKey n).data = ["page".data, natReprL n] := by
    rw [hdata, splitOnCharL_cons_ne (by decide), splitOnCharL_cons_ne (by decide),
      splitOnCharL_cons_ne (by decide), splitOnCharL_cons_ne (by decide),
      splitOnCharL_cons_eq (by decide),
      splitOnCharL_no_sep '_' (natReprL n) (no_underscore_natReprL n)]
  have hget : (pySplitChar (pageKey n) '_').getD 1 "" = natRepr n := by
    simp only [pySplitChar, hsplit, List.map_cons, List.map_nil]
    rfl
  rw [pageNum, hget]
  show (natOfDigitsL? (pyStripL (natReprL n))).getD 0 = n
  rw [pyStripL_eq_self _ (no_whitespace_natReprL n), natOfDigitsL_natReprL]
  rfl

theorem insertSortedBy_all_le (le : α → α → Bool) (x : α) (acc : List α)
    (h : ∀ y ∈ acc, le y x = true) : insertSortedBy le x acc = acc ++ [x] := by
  induction acc with
  | nil => rfl
  | cons y ys ih =>
    simp only [insertSortedBy, h y (List.mem_cons_self y ys), if_true,
      List.cons_append, List.cons.injEq, true_and]
    exact ih (fun z hz => h z (List.mem_cons_of_mem y hz))

theorem foldl_insertSortedBy_sorted (le : α → α → Bool) :
    ∀ (l acc : List α), List.Pairwise (fun a b => le a b = true) l →
      (∀ y ∈ acc, ∀ x ∈ l, le y x = true) →
      l.foldl (fun acc x => insertSortedBy le x acc) acc = acc ++ l := by
  intro l
  induction l with
  | nil => intro acc _ _; simp
  | cons x xs ih =>
    intro acc hpair hacc
    have hx : ∀ y ∈ acc, le y x = true :=
      fun y hy => hacc y hy x (List.mem_cons_self x xs)
    rw [List.foldl_cons, insertSortedBy_all_le le x acc hx,
      ih (acc ++ [x]) (List.Pairwise.of_cons hpair)]
    · simp
    · intro y hy z hz
      rcases List.mem_append.mp hy with h | h
      · exact hacc y h z (List.mem_cons_of_mem x hz)
      · have : y = x := by simpa using h
        subst this
        exact (List.pairwise_cons.mp hpair).1 z hz

theorem sortL_eq_self (le : α → α → Bool) (l : List α)
    (h : List.Pairwise (fun a b => le a b = true) l) : sortL le l = l := by
  rw [sortL, foldl_insertSortedBy_sorted le l [] h (by simp), List.nil_append]

theorem pairwise_extract_keys (outs : List OcrOutcome) :
    List.Pairwise (fun a b => decide (pageNum a.1 ≤ pageNum b.1) = true)
      (extract_text_from_pdf outs) := by
  rw [extract_text_from_pdf, List.enum_eq_enumFrom]
  suffices h : ∀ i : Nat, List.Pairwise (fun a b => decide (pageNum a.1 ≤ pageNum b.1) = true)
      ((List.enumFrom i outs).map
        (fun pr => (pageKey (pr.1 + 1), extract_text_from_image pr.2))) from h 0
  induction outs with
  | nil => intro i; simp
  | cons o os ih =>
    intro i
    rw [List.enumFrom_cons, List.map_cons]
    refine List.Pairwise.cons ?_ (ih (i + 1))
    intro b hb
    simp only [List.mem_map] at hb
    obtain ⟨⟨j, o'⟩, hj, rfl⟩ := hb
    have hji := (List.mem_enumFrom hj).1
    simp only [pageNum_pageKey]
    exact decide_eq_true (by omega)

/-- The page values of a run of `extract_text_from_pdf`, in order. -/
theorem extract_map_snd (outs : List OcrOutcome) :
    (extract_text_from_pdf outs).map Prod.snd = outs.map extract_text_from_image := by
  rw [extract_text_from_pdf, List.map_map]
  have : (Prod.snd ∘ fun pr : Nat × OcrOutcome =>
      (pageKey (pr.1 + 1), extract_text_from_image pr.2)) =
      extract_text_from_image ∘ Prod.snd := rfl
  rw [this, ← List.map_map, List.enum_map_snd]

theorem joinStrings_three (sep a b c : String) :
    joinStrings sep [a, b, c] = a ++ sep ++ b ++ sep ++ c := by
  apply String.ext
  show joinL sep.data [a.data, b.data, c.data] = _
  simp only [joinL, String.data_append, List.append_assoc]

/-- C7: per-page extraction failures yield an empty string without dropping
the page, and `get_full_text` joins the per-page results in numeric page
order with the page-break marker; for a 3-page document whose second page
fails, the result is the two good pages around an empty middle segment with
both markers present. -/
theorem ocr_page_isolation_and_join (outs : List OcrOutcome) (t1 t3 : String) :
    get_full_text (extract_text_from_pdf outs) =
        joinStrings PAGE_BREAK (outs.map extract_text_from_image)
      ∧ (extract_text_from_pdf outs).length = outs.length
      ∧ get_full_text (extract_text_from_pdf [.ok t1, .err, .ok t3]) =
          pyStrip t1 ++ PAGE_BREAK ++ "" ++ PAGE_BREAK ++ pyStrip t3 := by
  have hgen : ∀ os : List OcrOutcome, get_full_text (extract_text_from_pdf os) =
      joinStrings PAGE_BREAK (os.map extract_text_from_image) := by
    intro os
    rw [get_full_text, sortL_eq_self _ _ (pairwise_extract_keys os),
      extract_map_snd]
  refine ⟨hgen outs, ?_, ?_⟩
  · simp [extract_text_from_pdf]
  · rw [hgen [.ok t1, .err, .ok t3]]
    show joinStrings PAGE_BREAK [pyStrip t1, "", pyStrip t3] = _
    rw [joinStrings_three]

/-- C3: the relevance-response parser is total over any received reply (it is
a Lean function on all of `String`, every branch defaulting its field) and on
the two literal inputs of the spec it produces score `0.85` / `0.0`,
`is_relevant` `true` / `false` at threshold `0.6`, and topics
`["qubit", "entanglement"]` / `[]`; for every received reply, `is_relevant`
is exactly the Boolean `score >= threshold`. -/
theorem relevance_parser_defaults_and_threshold :
    (∀ (s : String) (threshold : ℚ),
      (check_quantum_relevance (.ok s) threshold).is_relevant =
        decide ((check_quantum_relevance (.ok s) threshold).relevance_score ≥
          threshold))
    ∧ (check_quantum_relevance
        (.ok "SCORE: 0.85\nEXPLANATION: strong quantum focus\nTOPICS: qubit, entanglement")
        0.6).relevance_score = 0.85
    ∧ (check_quantum_relevance
        (.ok "SCORE: 0.85\nEXPLANATION: strong quantum focus\nTOPICS: qubit, entanglement")
        0.6).is_relevant = true
    ∧ (check_quantum_relevance
        (.ok "SCORE: 0.85\nEXPLANATION: strong quantum focus\nTOPICS: qubit, entanglement")
        0.6).topics = ["qubit", "entanglement"]
    ∧ (check_quantum_relevance
        (.ok "SCORE: oops\nEXPLANATION: bad\nTOPICS: None") 0.6).relevance_score = 0
    ∧ (check_quantum_relevance
        (.ok "SCORE: oops\nEXPLANATION: bad\nTOPICS: None") 0.6).is_relevant = false
    ∧ (check_quantum_relevance
        (.ok "SCORE: oops\nEXPLANATION: bad\nTOPICS: None") 0.6).topics = [] := by
  refine ⟨fun s threshold => rfl, ?_, ?_, by decide, rfl, ?_, by decide⟩
  · have h : (check_quantum_relevance
        (.ok "SCORE: 0.85\nEXPLANATION: strong quantum focus\nTOPICS: qubit, entanglement")
        0.6).relevance_score = ((0 : ℕ) : ℚ) + ((85 : ℕ) : ℚ) / (10 : ℚ) ^ (2 : ℕ) := rfl
    rw [h]
    norm_num
  · have h : (check_quantum_relevance
        (.ok "SCORE: 0.85\nEXPLANATION: strong quantum focus\nTOPICS: qubit, entanglement")
        0.6).is_relevant =
        decide ((((0 : ℕ) : ℚ) + ((85 : ℕ) : ℚ) / (10 : ℚ) ^ (2 : ℕ)) ≥ (0.6 : ℚ)) := rfl
    rw [h]
    exact decide_eq_true (by norm_num)
  · have h : (check_quantum_relevance
        (.ok "SCORE: oops\nEXPLANATION: bad\nTOPICS: None") 0.6).is_relevant =
        decide ((0 : ℚ) ≥ (0.6 : ℚ)) := rfl
    rw [h]
    exact decide_eq_false (by norm_num)

/-- C5: the cheap relevance pre-filter accepts any record one of whose
category tags contains an allow-listed category as a substring, regardless
of its text; and rejects a record with no category match and no keyword
occurrence in the lower-cased `title + ' ' + abstract`. -/
theorem quantum_prefilter (p : Paper) :
    ((∃ cat ∈ p.categories, ∃ qc ∈ QUANTUM_CATEGORIES, pyContains cat qc = true) →
      is_quantum_related p = true)
    ∧ ((∀ cat ∈ p.categories, ∀ qc ∈ QUANTUM_CATEGORIES, pyContains cat qc = false) →
        (∀ kw ∈ quantum_keywords,
          pyContains (pyLower (p.title ++ " " ++ p.abstract)) kw = false) →
        is_quantum_related p = false) := by
  constructor
  · intro ⟨cat, hcat, qc, hqc, hsub⟩
    simp only [is_quantum_related, Bool.or_eq_true, List.any_eq_true]
    exact Or.inl ⟨cat, hcat, qc, hqc, hsub⟩
  · intro hcat hkw
    have h1 : p.categories.any
        (fun cat => QUANTUM_CATEGORIES.any (fun qc => pyContains cat qc)) = false := by
      simp only [List.any_eq_false]
      intro cat hc hq
      obtain ⟨qc, hqmem, hqc⟩ := List.any_eq_true.mp hq
      exact absurd hqc (by simp [hcat cat hc qc hqmem])
    have h2 : quantum_keywords.any
        (fun kw => pyContains (pyLower (p.title ++ " " ++ p.abstract)) kw) = false := by
      simp only [List.any_eq_false]
      intro kw hk
      simp [hkw kw hk]
    simp [is_quantum_related, h1, h2]

/-- A category-tagged paper with non-quantum text, and a plain paper, used to
instantiate the pre-filter theorem. -/
def paperCatOnly : Paper :=
  { arxiv_id := "2401.00001", title := "On widgets",
    abstract := "A study of gadget assembly.", authors := [],
    categories := ["quant-ph"], published := some "2024-01-01",
    updated := some "2024-01-01", pdf_link := "", abstract_link := "",
    fetched_at := "t0" }

def paperPlain : Paper :=
  { arxiv_id := "2401.00002", title := "On sorting networks",
    abstract := "Classical combinatorics only.", authors := [],
    categories := ["cs.DS"], published := some "2024-01-02",
    updated := some "2024-01-02", pdf_link := "", abstract_link := "",
    fetched_at := "t0" }

theorem quantum_prefilter_witness :
    is_quantum_related paperCatOnly = true ∧ is_quantum_related paperPlain = false :=
  ⟨(quantum_prefilter paperCatOnly).1 (by decide),
   (quantum_prefilter paperPlain).2 (by decide) (by decide)⟩

/-- C1: inserting a record whose arXiv id is already stored returns the
duplicate sentinel `none` (the caught `IntegrityError`) and leaves the store
unchanged — in particular a store holding exactly one such record still holds
exactly one — while inserting a fresh record returns the non-null new row id
and results in exactly one stored record with that id. -/
theorem insert_paper_unique (db : PaperDatabase) (p : Paper) :
    (db.countId p.arxiv_id = 0 →
      (db.insert_paper p).1 = some db.next_paper_id ∧
      (db.insert_paper p).2.countId p.arxiv_id = 1)
    ∧ (0 < db.countId p.arxiv_id →
      (db.insert_paper p).1 = none ∧ (db.insert_paper p).2 = db) := by
  constructor
  · intro h0
    have hfil : db.papers.filter (fun r => r.arxiv_id == p.arxiv_id) = [] :=
      List.length_eq_zero.mp h0
    have hany : db.papers.any (fun r => r.arxiv_id == p.arxiv_id) = false := by
      simp only [List.any_eq_false]
      intro r hr
      have := List.filter_eq_nil_iff.mp hfil r hr
      simpa using this
    constructor
    · simp [PaperDatabase.insert_paper, hany]
    · simp only [PaperDatabase.insert_paper, hany, Bool.false_eq_true, if_false,
        PaperDatabase.countId, List.filter_append, hfil, List.nil_append]
      simp
  · intro hpos
    have hany : db.papers.any (fun r => r.arxiv_id == p.arxiv_id) = true := by
      rcases List.length_pos.mp hpos with _
      obtain ⟨r, hr⟩ := List.exists_mem_of_length_pos hpos
      have hmem := List.mem_filter.mp hr
      exact List.any_eq_true.mpr ⟨r, hmem.1, hmem.2⟩
    constructor <;> simp [PaperDatabase.insert_paper, hany]

theorem insert_paper_unique_witness :
    ((PaperDatabase.empty.insert_paper paperCatOnly).1 = some 1 ∧
      (PaperDatabase.empty.insert_paper paperCatOnly).2.countId
        paperCatOnly.arxiv_id = 1)
    ∧ (((PaperDatabase.empty.insert_paper paperCatOnly).2.insert_paper
          paperCatOnly).1 = none ∧
        ((PaperDatabase.empty.insert_paper paperCatOnly).2.insert_paper
          paperCatOnly).2 = (PaperDatabase.empty.insert_paper paperCatOnly).2) :=
  ⟨(insert_paper_unique PaperDatabase.empty paperCatOnly).1 (by decide),
   (insert_paper_unique (PaperDatabase.empty.insert_paper paperCatOnly).2
      paperCatOnly).2 (by decide)⟩

/-- C2: a successful `insert_summary` creates the summary row and flips the
parent's `processed` flag in the same committed unit of work, and afterwards
`get_unprocessed_papers` excludes that paper for every limit; a failed call
leaves the store entirely unchanged (neither side committed). -/
theorem insert_summary_atomic (db : PaperDatabase) (pid : Nat)
    (m k : String) (e : Option String) (outcome : SqlOutcome) :
    (∀ sid, (db.insert_summary pid m k e outcome).1 = some sid →
      (∃ srow ∈ (db.insert_summary pid m k e outcome).2.summaries,
        srow.id = sid ∧ srow.paper_id = pid ∧ srow.methodology_summary = m ∧
        srow.key_contributions = k ∧ srow.extracted_text = e)
      ∧ (∀ r ∈ (db.insert_summary pid m k e outcome).2.papers,
          r.id = pid → r.processed = true)
      ∧ (∀ limit : Nat,
          ∀ r ∈ (db.insert_summary pid m k e outcome).2.get_unprocessed_papers limit,
            r.id ≠ pid))
    ∧ ((db.insert_summary pid m k e outcome).1 = none →
        (db.insert_summary pid m k e outcome).2 = db) := by
  cases outcome with
  | err =>
    refine ⟨fun sid h => absurd h (by simp [PaperDatabase.insert_summary]), fun _ => rfl⟩
  | ok =>
    have hproc : ∀ r ∈ (db.insert_summary pid m k e .ok).2.papers,
        r.id = pid → r.processed = true := by
      intro r hr hid
      simp only [PaperDatabase.insert_summary, List.mem_map] at hr
      obtain ⟨r0, _, rfl⟩ := hr
      by_cases h0 : (r0.id == pid) = true
      · simp [h0]
      · exfalso
        by_cases h0' : (r0.id == pid) = true
        · exact h0 h0'
        · simp only [h0', Bool.false_eq_true, if_false] at hid
          exact h0 (by simpa using hid)
    refine ⟨fun sid h => ?_, fun h => absurd h (by simp [PaperDatabase.insert_summary])⟩
    have hsid : sid = db.next_summary_id := by
      simpa [PaperDatabase.insert_summary] using h.symm
    refine ⟨⟨(⟨db.next_summary_id, pid, m, k, e⟩ : SummaryRow), ?_, by simp [hsid]⟩,
      hproc, ?_⟩
    · simp [PaperDatabase.insert_summary]
    · intro limit r hr hid
      have hr1 : r ∈ sortL (fun a b => publishedGe a.published b.published)
          ((db.insert_summary pid m k e .ok).2.papers.filter (fun q => !q.processed)) :=
        List.mem_of_mem_take hr
      have hr2 := (mem_sortL _ _ r).mp hr1
      have hr3 := List.mem_filter.mp hr2
      have := hproc r hr3.1 hid
      simp [this] at hr3

/-- A one-paper store used to instantiate the summary-atomicity theorem. -/
def rowWidget : PaperRow :=
  { id := 1
    arxiv_id := "2401.00001"
    title := "On widgets"
    abstract := "A"
    authors := []
    categories := ["quant-ph"]
    published := some "2024-01-01"
    updated := some "2024-01-01"
    pdf_link := ""
    abstract_link := ""
    processed := false
    is_quantum_relevant := true
    relevance_score := 0 }

def dbOnePaper : PaperDatabase :=
  { papers := [rowWidget]
    summaries := []
    next_paper_id := 2
    next_summary_id := 1 }

theorem insert_summary_atomic_witness :
    ((∃ srow ∈ (dbOnePaper.insert_summary 1 "m" "k" none .ok).2.summaries,
        srow.id = 1 ∧ srow.paper_id = 1 ∧ srow.methodology_summary = "m" ∧
        srow.key_contributions = "k" ∧ srow.extracted_text = none)
      ∧ (∀ r ∈ (dbOnePaper.insert_summary 1 "m" "k" none .ok).2.papers,
          r.id = 1 → r.processed = true)
      ∧ (∀ limit : Nat,
          ∀ r ∈ (dbOnePaper.insert_summary 1 "m" "k" none .ok).2.get_unprocessed_papers
            limit, r.id ≠ 1))
    ∧ (dbOnePaper.insert_summary 1 "m" "k" none .err).2 = dbOnePaper :=
  ⟨(insert_summary_atomic dbOnePaper 1 "m" "k" none .ok).1 1 (by decide),
   (insert_summary_atomic dbOnePaper 1 "m" "k" none .err).2 (by decide)⟩

theorem dedupFilterLoop_spec (fq : Bool) :
    ∀ (ps : List Paper) (seen : List String),
      ((dedupFilterLoop fq seen ps).1.map generate_paper_hash).Nodup
      ∧ (∀ p ∈ (dedupFilterLoop fq seen ps).1, generate_paper_hash p ∉ seen)
      ∧ (∀ x : String, x ∈ (dedupFilterLoop fq seen ps).2 ↔
          x ∈ seen ∨ x ∈ (dedupFilterLoop fq seen ps).1.map generate_paper_hash) := by
  intro ps
  induction ps with
  | nil => intro seen; simp [dedupFilterLoop]
  | cons p rest ih =>
    intro seen
    by_cases h1 : seen.contains (generate_paper_hash p) = true
    · simpa only [dedupFilterLoop, h1, if_true] using ih seen
    · have h1' : seen.contains (generate_paper_hash p) = false :=
        Bool.eq_false_iff.mpr h1
      have hnotmem : generate_paper_hash p ∉ seen := fun hm =>
        h1 (List.elem_iff.mpr hm)
      by_cases h2 : (fq && !is_quantum_related p) = true
      · simpa only [dedupFilterLoop, h1', Bool.false_eq_true, if_false, h2,
          if_true] using ih seen
      · have h2' : (fq && !is_quantum_related p) = false := Bool.eq_false_iff.mpr h2
        obtain ⟨ihN, ihS, ihI⟩ := ih (generate_paper_hash p :: seen)
        have hres : dedupFilterLoop fq seen (p :: rest) =
            (p :: (dedupFilterLoop fq (generate_paper_hash p :: seen) rest).1,
             (dedupFilterLoop fq (generate_paper_hash p :: seen) rest).2) := by
          simp only [dedupFilterLoop, h1', Bool.false_eq_true, if_false, h2']
        rw [hres]
        refine ⟨?_, ?_, ?_⟩
        · simp only [List.map_cons, List.nodup_cons]
          refine ⟨?_, ihN⟩
          intro hx
          obtain ⟨q, hq, hqe⟩ := List.mem_map.mp hx
          exact (ihS q hq) (hqe ▸ List.mem_cons_self _ _)
        · intro q hq
          rcases List.mem_cons.mp hq with rfl | hq'
          · exact hnotmem
          · exact fun hm => (ihS q hq') (List.mem_cons_of_mem _ hm)
        · intro x
          rw [ihI x]
          simp only [List.map_cons, List.mem_cons]
          tauto

/-- Everything a single successful `search` call guarantees: the returned
ids are duplicate-free, none was in the incoming seen-set, and the outgoing
seen-set is exactly the incoming one plus the returned ids. -/
theorem search_ok_facts (s : ArxivSearcher) (fetch : FetchOutcome) (fq : Bool)
    (now : String) (out : List Paper) (s' : ArxivSearcher)
    (h : s.search fetch fq now = .ok (out, s')) :
    (out.map generate_paper_hash).Nodup
    ∧ (∀ p ∈ out, generate_paper_hash p ∉ s.seen_papers)
    ∧ (∀ x : String, x ∈ s'.seen_papers ↔
        x ∈ s.seen_papers ∨ x ∈ out.map generate_paper_hash) := by
  cases fetch with
  | netError =>
    simp only [ArxivSearcher.search, Except.ok.injEq, Prod.mk.injEq] at h
    obtain ⟨rfl, rfl⟩ := h
    simp
  | ok body =>
    cases body with
    | malformed => exact absurd h (by simp [ArxivSearcher.search])
    | doc entries =>
      simp only [ArxivSearcher.search, Except.ok.injEq, Prod.mk.injEq] at h
      obtain ⟨rfl, rfl⟩ := h
      exact dedupFilterLoop_spec fq (parse_arxiv_response now entries) s.seen_papers

/-- C6: across two calls on the same client instance, the combined outputs
repeat no arXiv id: ids returned earlier are silently dropped later. -/
theorem search_dedup_across_calls (s0 : ArxivSearcher) (f1 f2 : FetchOutcome)
    (fq1 fq2 : Bool) (now1 now2 : String) (out1 out2 : List Paper)
    (s1 s2 : ArxivSearcher)
    (h1 : s0.search f1 fq1 now1 = .ok (out1, s1))
    (h2 : s1.search f2 fq2 now2 = .ok (out2, s2)) :
    ((out1 ++ out2).map Paper.arxiv_id).Nodup := by
  obtain ⟨n1, _, i1⟩ := search_ok_facts s0 f1 fq1 now1 out1 s1 h1
  obtain ⟨n2, d2, _⟩ := search_ok_facts s1 f2 fq2 now2 out2 s2 h2
  show ((out1 ++ out2).map generate_paper_hash).Nodup
  rw [List.map_append, List.nodup_append]
  refine ⟨n1, n2, ?_⟩
  intro x hx1 hx2
  have hxs1 : x ∈ s1.seen_papers := (i1 x).mpr (Or.inr hx1)
  obtain ⟨q, hq, rfl⟩ := List.mem_map.mp hx2
  exact d2 q hq hxs1

/-- A minimal Atom entry carrying only an id URL, used for witnesses. -/
def entryId (aid : String) : AtomEntry :=
  { title := none
    summary := none
    idElem := some ⟨some ("http://arxiv.org/abs/" ++ aid)⟩
    published := none
    updated := none
    authorName := []
    categoryTerm := [] }

/-- The paper `entryId aid` parses to. -/
def paperOfId (aid now : String) : Paper :=
  { arxiv_id := aid
    title := "N/A"
    abstract := "N/A"
    authors := []
    categories := []
    published := some "N/A"
    updated := some "N/A"
    pdf_link := "https://arxiv.org/pdf/" ++ aid ++ ".pdf"
    abstract_link := "https://arxiv.org/abs/" ++ aid
    fetched_at := now }

theorem search_dedup_across_calls_witness :
    (([paperOfId "1" "t"] ++ [paperOfId "2" "t"]).map Paper.arxiv_id).Nodup :=
  search_dedup_across_calls ⟨[]⟩ (.ok (.doc [entryId "1"]))
    (.ok (.doc [entryId "1", entryId "2"])) false false "t" "t"
    [paperOfId "1" "t"] [paperOfId "2" "t"] ⟨["1"]⟩ ⟨["2", "1"]⟩
    (by rfl) (by rfl)

/-- C10: the seen-set records exactly the ids a call actually returned — a
record dropped by the quantum filter is not added, the call leaves the
searcher unchanged, and a later call on the same instance with the filter
disabled still returns that record. -/
theorem seen_set_tracks_returned_only :
    (∀ (s : ArxivSearcher) (fetch : FetchOutcome) (fq : Bool) (now : String)
        (out : List Paper) (s' : ArxivSearcher),
      s.search fetch fq now = .ok (out, s') →
      ∀ x : String, x ∈ s'.seen_papers ↔
        x ∈ s.seen_papers ∨ x ∈ out.map Paper.arxiv_id)
    ∧ (∀ (s : ArxivSearcher) (entries : List AtomEntry) (p : Paper) (now : String),
        parse_arxiv_response now entries = [p] →
        is_quantum_related p = false →
        p.arxiv_id ∉ s.seen_papers →
        s.search (.ok (.doc entries)) true now = .ok ([], s)
        ∧ s.search (.ok (.doc entries)) false now =
            .ok ([p], ⟨p.arxiv_id :: s.seen_papers⟩)) := by
  constructor
  · intro s fetch fq now out s' h
    exact (search_ok_facts s fetch fq now out s' h).2.2
  · intro s entries p now hparse hquant hseen
    have hcont : s.seen_papers.contains p.arxiv_id = false :=
      Bool.eq_false_iff.mpr (fun hc => hseen (List.elem_iff.mp hc))
    constructor
    · simp only [ArxivSearcher.search, hparse, dedupFilterLoop, generate_paper_hash,
        hcont, Bool.false_eq_true, if_false, hquant, Bool.not_false, Bool.and_true,
        if_true]
    · simp only [ArxivSearcher.search, hparse, dedupFilterLoop, generate_paper_hash,
        hcont, Bool.false_eq_true, if_false, Bool.false_and]

theorem seen_set_tracks_returned_only_witness :
    ("1" ∈ (ArxivSearcher.mk ["1"]).seen_papers ↔
      "1" ∈ (ArxivSearcher.mk []).seen_papers ∨
        "1" ∈ [paperOfId "1" "t"].map Paper.arxiv_id)
    ∧ ((ArxivSearcher.mk []).search (.ok (.doc [entryId "1"])) true "t" =
          .ok ([], ⟨[]⟩)
      ∧ (ArxivSearcher.mk []).search (.ok (.doc [entryId "1"])) false "t" =
          .ok ([paperOfId "1" "t"], ⟨["1"]⟩)) :=
  ⟨seen_set_tracks_returned_only.1 ⟨[]⟩ (.ok (.doc [entryId "1"])) false "t"
      [paperOfId "1" "t"] ⟨["1"]⟩ (by rfl) "1",
   seen_set_tracks_returned_only.2 ⟨[]⟩ [entryId "1"] (paperOfId "1" "t") "t"
      (by decide) (by decide) (by decide)⟩

/-- C4 counterexample: `ET.fromstring` runs outside the `try` that guards
only the network fetch, so a response body that is not well-formed XML makes
`search` raise to its caller instead of returning an empty sequence. -/
theorem search_raises_on_malformed_document :
    ArxivSearcher.search ⟨[]⟩ (.ok .malformed) true "t" = .error () := rfl

/-- C4 (amended): a network error during the fetch is caught and yields an
empty sequence; a malformed individual entry is skipped while the remaining
entries are still parsed and returned; but a document-level XML parse failure
of the response body raises out of the search call. -/
theorem search_error_handling_amended :
    (∀ (s : ArxivSearcher) (fq : Bool) (now : String),
      s.search .netError fq now = .ok ([], s))
    ∧ (∀ (now : String) (pre post : List AtomEntry) (e : AtomEntry),
        parseEntry now e = none →
        parse_arxiv_response now (pre ++ e :: post) =
          parse_arxiv_response now (pre ++ post))
    ∧ (∀ (s : ArxivSearcher) (fq : Bool) (now : String),
        s.search (.ok .malformed) fq now = .error ()) := by
  refine ⟨fun s fq now => rfl, ?_, fun s fq now => rfl⟩
  intro now pre post e he
  simp [parse_arxiv_response, List.filterMap_append, List.filterMap_cons, he]

/-- An entry whose `<title>` element is present but empty: `title.text` is
`None`, so `.strip()` raises and the entry is skipped. -/
def entryBadTitle : AtomEntry :=
  { title := some ⟨none⟩
    summary := none
    idElem := none
    published := none
    updated := none
    authorName := []
    categoryTerm := [] }

theorem search_error_handling_amended_witness :
    parse_arxiv_response "t" ([entryId "1"] ++ entryBadTitle :: [entryId "2"]) =
      parse_arxiv_response "t" ([entryId "1"] ++ [entryId "2"]) :=
  search_error_handling_amended.2.1 "t" [entryId "1"] [entryId "2"] entryBadTitle rfl

/-- C9 counterexample: with the OCR credential missing but the summarization
credential present, the summarization client is also disabled — the missing
credential does not disable only its dependent client. -/
theorem crawler_init_joint_disable_counterexample :
    (ArxivCrawler.init "" "sum-key").summarizer_enabled = false
    ∧ "sum-key" ≠ "" :=
  ⟨rfl, by decide⟩

/-- C9 (amended): the OCR and summarization clients are only enabled jointly
— a missing credential for either disables both — while the search-and-store
path never consults the clients and still runs in every configuration; with
a client missing, the processing batch is skipped with the store untouched
rather than crashing. -/
theorem crawler_init_amended :
    (∀ ocr sum : String,
      (ArxivCrawler.init ocr sum).ocr_enabled =
        (ArxivCrawler.init ocr sum).summarizer_enabled
      ∧ (ArxivCrawler.init ocr sum).ocr_enabled = (!(ocr == "") && !(sum == "")))
    ∧ (∀ (c c' : ArxivCrawler) (searcher : ArxivSearcher) (db : PaperDatabase)
        (fetches : List FetchOutcome) (now : String),
        ArxivCrawler.search_new_papers c searcher db fetches now =
          ArxivCrawler.search_new_papers c' searcher db fetches now)
    ∧ (∀ (sum : String) (db : PaperDatabase) (envOf : Nat → PaperEnv) (bs e0 : Nat),
        (ArxivCrawler.init "" sum).process_papers db envOf bs e0 = (db, 0, e0))
    ∧ (∀ (ocr : String) (db : PaperDatabase) (envOf : Nat → PaperEnv) (bs e0 : Nat),
        (ArxivCrawler.init ocr "").process_papers db envOf bs e0 = (db, 0, e0)) := by
  refine ⟨?_, fun c c' searcher db fetches now => rfl, fun sum db envOf bs e0 => rfl, ?_⟩
  · intro ocr sum
    by_cases h : (!(ocr == "") && !(sum == "")) = true <;>
      simp [ArxivCrawler.init, h]
  · intro ocr db envOf bs e0
    by_cases h : (ocr == "") = true <;>
      simp [ArxivCrawler.init, ArxivCrawler.process_papers, h]

theorem insert_summary_sets_processed (db : PaperDatabase) (pid : Nat)
    (m k : String) (e : Option String) :
    ∀ q ∈ (db.insert_summary pid m k e .ok).2.papers,
      q.id = pid → q.processed = true := by
  intro q hq hid
  simp only [PaperDatabase.insert_summary, List.mem_map] at hq
  obtain ⟨q0, _, rfl⟩ := hq
  by_cases h0 : (q0.id == pid) = true
  · simp [h0]
  · simp only [h0, Bool.false_eq_true, if_false] at hid ⊢
    exact absurd hid (by simpa using h0)

theorem insert_summary_keeps_processed (db : PaperDatabase) (pid' : Nat)
    (m k : String) (e : Option String) (oc : SqlOutcome) (id : Nat)
    (h : ∀ q ∈ db.papers, q.id = id → q.processed = true) :
    ∀ q ∈ (db.insert_summary pid' m k e oc).2.papers,
      q.id = id → q.processed = true := by
  cases oc with
  | err => exact h
  | ok =>
    intro q hq hid
    simp only [PaperDatabase.insert_summary, List.mem_map] at hq
    obtain ⟨q0, hq0, rfl⟩ := hq
    by_cases h0 : (q0.id == pid') = true
    · simp [h0]
    · simp only [h0, Bool.false_eq_true, if_false] at hid ⊢
      exact h q0 hq0 hid

theorem process_one_paper_raises (db : PaperDatabase) (row : PaperRow)
    (env : PaperEnv)
    (h : (env.relevance.is_relevant && env.extraction_raises) = true) :
    process_one_paper db row env = .error () := by
  obtain ⟨hrel, hrai⟩ := Bool.and_eq_true_iff.mp h
  simp [process_one_paper, hrel, hrai]

theorem process_one_paper_ok (db : PaperDatabase) (row : PaperRow)
    (env : PaperEnv)
    (h : (env.relevance.is_relevant && env.extraction_raises) = false) :
    ∃ db' : PaperDatabase,
      process_one_paper db row env = .ok (db', env.relevance.is_relevant)
      ∧ (∀ q ∈ db'.papers, q.id = row.id → q.processed = true)
      ∧ (∀ id : Nat, (∀ q ∈ db.papers, q.id = id → q.processed = true) →
          ∀ q ∈ db'.papers, q.id = id → q.processed = true) := by
  by_cases hrel : env.relevance.is_relevant = true
  · have hrai : env.extraction_raises = false := by
      cases hx : env.extraction_raises
      · rfl
      · rw [hrel, hx] at h
        exact absurd h (by simp)
    refine ⟨(db.insert_summary row.id env.methodology env.contributions
      (some (pySlice (get_full_text (extract_text_from_pdf env.pageOutcomes)) 10000))
      .ok).2, ?_, ?_, ?_⟩
    · simp only [process_one_paper, hrel, Bool.not_true, Bool.false_eq_true,
        if_false, hrai, Option.isSome_some, Except.ok.injEq, Prod.mk.injEq]
      exact ⟨trivial, by simp [PaperDatabase.insert_summary]⟩
    · simpa only [process_one_paper, hrel, Bool.not_true, Bool.false_eq_true,
        if_false, hrai] using
        insert_summary_sets_processed db row.id env.methodology env.contributions
          (some (pySlice (get_full_text (extract_text_from_pdf env.pageOutcomes)) 10000))
    · intro id hinv
      simpa only [process_one_paper, hrel, Bool.not_true, Bool.false_eq_true,
        if_false, hrai] using
        insert_summary_keeps_processed db row.id env.methodology env.contributions
          (some (pySlice (get_full_text (extract_text_from_pdf env.pageOutcomes)) 10000))
          .ok id hinv
  · have hrel' : env.relevance.is_relevant = false := Bool.eq_false_iff.mpr hrel
    refine ⟨(db.insert_summary row.id "Not relevant to quantum computing" "N/A" none
      .ok).2, ?_, ?_, ?_⟩
    · simp only [process_one_paper, hrel', Bool.not_false, if_true, Except.ok.injEq,
        Prod.mk.injEq]
    · simpa only [process_one_paper, hrel', Bool.not_false, if_true] using
        insert_summary_sets_processed db row.id "Not relevant to quantum computing"
          "N/A" none
    · intro id hinv
      simpa only [process_one_paper, hrel', Bool.not_false, if_true] using
        insert_summary_keeps_processed db row.id "Not relevant to quantum computing"
          "N/A" none .ok id hinv

theorem processFold_spec (envOf : Nat → PaperEnv) :
    ∀ (rows : List PaperRow) (db : PaperDatabase) (p0 e0 : Nat),
      (rows.foldl (fun acc row =>
          match process_one_paper acc.1 row (envOf row.id) with
          | .ok (db', exported) =>
            (db', acc.2.1 + (if exported then 1 else 0), acc.2.2)
          | .error _ => (acc.1, acc.2.1, acc.2.2 + 1)) (db, p0, e0)).2.2 =
        e0 + (rows.filter (fun row =>
          (envOf row.id).relevance.is_relevant &&
            (envOf row.id).extraction_raises)).length
      ∧ (rows.foldl (fun acc row =>
          match process_one_paper acc.1 row (envOf row.id) with
          | .ok (db', exported) =>
            (db', acc.2.1 + (if exported then 1 else 0), acc.2.2)
          | .error _ => (acc.1, acc.2.1, acc.2.2 + 1)) (db, p0, e0)).2.1 =
        p0 + (rows.filter (fun row =>
          (envOf row.id).relevance.is_relevant &&
            !(envOf row.id).extraction_raises)).length
      ∧ (∀ row ∈ rows,
          ((envOf row.id).relevance.is_relevant &&
            (envOf row.id).extraction_raises) = false →
          ∀ q ∈ (rows.foldl (fun acc row =>
              match process_one_paper acc.1 row (envOf row.id) with
              | .ok (db', exported) =>
                (db', acc.2.1 + (if exported then 1 else 0), acc.2.2)
              | .error _ => (acc.1, acc.2.1, acc.2.2 + 1)) (db, p0, e0)).1.papers,
            q.id = row.id → q.processed = true)
      ∧ (∀ id : Nat, (∀ q ∈ db.papers, q.id = id → q.processed = true) →
          ∀ q ∈ (rows.foldl (fun acc row =>
              match process_one_paper acc.1 row (envOf row.id) with
              | .ok (db', exported) =>
                (db', acc.2.1 + (if exported then 1 else 0), acc.2.2)
              | .error _ => (acc.1, acc.2.1, acc.2.2 + 1)) (db, p0, e0)).1.papers,
            q.id = id → q.processed = true) := by
  intro rows
  induction rows with
  | nil =>
    intro db p0 e0
    refine ⟨by simp, by simp, by simp, fun id hinv => by simpa using hinv⟩
  | cons row rest ih =>
    intro db p0 e0
    by_cases hr : ((envOf row.id).relevance.is_relevant &&
        (envOf row.id).extraction_raises) = true
    · have hstep := process_one_paper_raises db row (envOf row.id) hr
      obtain ⟨ihE, ihP, ihT, ihK⟩ := ih db p0 (e0 + 1)
      have hnot2 : ((envOf row.id).relevance.is_relevant &&
          !(envOf row.id).extraction_raises) = false := by
        obtain ⟨h1, h2⟩ := Bool.and_eq_true_iff.mp hr
        simp [h1, h2]
      refine ⟨?_, ?_, ?_, ?_⟩
      · simp only [List.foldl_cons, hstep, List.filter_cons, hr, if_true,
          List.length_cons]
        rw [ihE]
        omega
      · simp only [List.foldl_cons, hstep, List.filter_cons, hnot2,
          Bool.false_eq_true, if_false]
        exact ihP
      · intro r hmem hok
        rcases List.mem_cons.mp hmem with rfl | hmem'
        · exact absurd hr (by simp [hok])
        · simp only [List.foldl_cons, hstep]
          exact ihT r hmem' hok
      · intro id hinv
        simp only [List.foldl_cons, hstep]
        exact ihK id hinv
    · have hr' : ((envOf row.id).relevance.is_relevant &&
          (envOf row.id).extraction_raises) = false := Bool.eq_false_iff.mpr hr
      obtain ⟨db', hstep, hsets, hkeeps⟩ :=
        process_one_paper_ok db row (envOf row.id) hr'
      obtain ⟨ihE, ihP, ihT, ihK⟩ := ih db'
        (p0 + (if (envOf row.id).relevance.is_relevant then 1 else 0)) e0
      have hnot2 : ((envOf row.id).relevance.is_relevant &&
          !(envOf row.id).extraction_raises) = (envOf row.id).relevance.is_relevant := by
        cases h1 : (envOf row.id).relevance.is_relevant
        · simp
        · cases h2 : (envOf row.id).extraction_raises
          · simp
          · rw [h1, h2] at hr'
            exact absurd hr' (by simp)
      refine ⟨?_, ?_, ?_, ?_⟩
      · simp only [List.foldl_cons, hstep, List.filter_cons, hr',
          Bool.false_eq_true, if_false]
        exact ihE
      · simp only [List.foldl_cons, hstep, List.filter_cons, hnot2]
        cases h1 : (envOf row.id).relevance.is_relevant
        · rw [h1] at ihP
          simp only [Bool.false_eq_true, if_false] at ihP ⊢
          simpa using ihP
        · rw [h1] at ihP
          simp only [if_true, List.length_cons] at ihP ⊢
          rw [ihP]
          omega
      · intro r hmem hok
        rcases List.mem_cons.mp hmem with rfl | hmem'
        · simp only [List.foldl_cons, hstep]
          exact ihK r.id hsets
        · simp only [List.foldl_cons, hstep]
          exact ihT r hmem' hok
      · intro id hinv
        simp only [List.foldl_cons, hstep]
        exact ihK id (hkeeps id hinv)

/-- An unprocessed store row for batch-scenario fixtures. -/
def rowN (i : Nat) (pub : String) : PaperRow :=
  { id := i
    arxiv_id := natRepr i
    title := "T"
    abstract := "A"
    authors := []
    categories := ["quant-ph"]
    published := some pub
    updated := some pub
    pdf_link := ""
    abstract_link := ""
    processed := false
    is_quantum_relevant := true
    relevance_score := 0 }

/-- Five unprocessed papers, newest first by publication date. -/
def db5 : PaperDatabase :=
  { papers := [rowN 1 "2024-05-01", rowN 2 "2024-04-01", rowN 3 "2024-03-01",
      rowN 4 "2024-02-01", rowN 5 "2024-01-01"]
    summaries := []
    next_paper_id := 6
    next_summary_id := 1 }

/-- Environment of a relevant paper whose processing fully succeeds. -/
def relevantEnv : PaperEnv :=
  { relevance :=
      { is_relevant := true
        relevance_score := 1
        explanation := ""
        topics := []
        raw_response := "" }
    extraction_raises := false
    pageOutcomes := [.ok "text"]
    methodology := "M"
    contributions := "K" }

/-- All five papers are relevant; extraction raises only for paper 3. -/
def env5 : Nat → PaperEnv :=
  fun i => if i == 3 then { relevantEnv with extraction_raises := true }
    else relevantEnv

/-- C8: per-paper exceptions inside a batch are caught and counted, and do
not stop the remaining papers: the error counter grows by exactly the number
of raising papers, the processed counter by the number of relevant papers
that complete, and every batch paper whose processing does not raise ends
with its `processed` flag set — the batch call itself is a total function
and never propagates an exception. In particular, on 5 unprocessed papers
where the third raises during extraction, 4 reach a terminal processed state
and 1 error is counted. -/
theorem process_papers_isolates_errors (db : PaperDatabase)
    (envOf : Nat → PaperEnv) (bs e0 : Nat) :
    (((ArxivCrawler.mk true true).process_papers db envOf bs e0).2.2 =
      e0 + ((db.get_unprocessed_papers bs).filter (fun row =>
        (envOf row.id).relevance.is_relevant &&
          (envOf row.id).extraction_raises)).length
    ∧ ((ArxivCrawler.mk true true).process_papers db envOf bs e0).2.1 =
      ((db.get_unprocessed_papers bs).filter (fun row =>
        (envOf row.id).relevance.is_relevant &&
          !(envOf row.id).extraction_raises)).length
    ∧ (∀ row ∈ db.get_unprocessed_papers bs,
        ((envOf row.id).relevance.is_relevant &&
          (envOf row.id).extraction_raises) = false →
        ∀ q ∈ ((ArxivCrawler.mk true true).process_papers db envOf bs e0).1.papers,
          q.id = row.id → q.processed = true))
    ∧ ((ArxivCrawler.mk true true).process_papers db5 env5 5 0).2.2 = 1
    ∧ ((ArxivCrawler.mk true true).process_papers db5 env5 5 0).2.1 = 4
    ∧ ((ArxivCrawler.mk true true).process_papers db5 env5 5 0).1.papers.map
        (fun q => (q.id, q.processed)) =
        [(1, true), (2, true), (3, false), (4, true), (5, true)] := by
  obtain ⟨hE, hP, hT, _⟩ :=
    processFold_spec envOf (db.get_unprocessed_papers bs) db 0 e0
  refine ⟨⟨?_, ?_, ?_⟩, by decide, by decide, by decide⟩
  · exact hE
  · simpa using hP
  · exact hT

end ArxivTool
